import Mathlib

/-!
Shallow embedding of the notebook `playground/never-fair.ipynb`.

The notebook trains an adversarially debiased binary classifier.  The parts
embedded here are the ones the claims are about:

* the fairness metrics `p_rule`, `fp_rate`, `fn_rate` (numpy code over
  prediction vectors), embedded over `ℚ` with positional alignment of the
  boolean masks (`y_pred[z_values == g]` becomes a filter over zipped lists);
  `ℚ` has total division (`x / 0 = 0`), where numpy emits `nan`/`inf`, so the
  division-by-zero claims are stated about the denominators themselves;
* `load_GEN_data` (pandas code), embedded over a `DataFrame` model: a list of
  named columns of CSV values; missing columns and failing int casts make the
  embedding return `none` where pandas raises;
* the `Adverserial` network and the training-loss expressions of
  `pretrain_adverserial` and `train`, over `ℝ` (`Real.log`, `Real.exp` stand
  for the float ops);
* the control flow of `train`, as a fold over the batch list with abstract
  optimizer steps.
-/

namespace NeverFair

/-- Mean of a list of rationals: `.mean()` of a numpy array, `sum / len`.
With `ℚ`'s total division the mean of the empty list is `0`;
numpy would produce `nan` there. -/
def listMean (l : List ℚ) : ℚ := l.sum / l.length

/-- The boolean-mask selection `y_pred[z_values == g]`: the predictions at the
positions where the group vector equals `g`. -/
def groupVals (y_pred z_values : List ℚ) (g : ℚ) : List ℚ :=
  ((y_pred.zip z_values).filter (fun pz => pz.2 = g)).map Prod.fst

/-- One group mean of `p_rule`:
`(y_pred[z_values == g] > threshold if threshold else y_pred[z_values == g]).mean()`.
Python truthiness makes `if threshold` the test `threshold ≠ 0`; a numpy
boolean array's mean is the fraction of `True`, here written as the mean of
`0`/`1` indicators. -/
def groupMean (y_pred z_values : List ℚ) (g threshold : ℚ) : ℚ :=
  if threshold ≠ 0 then
    listMean ((groupVals y_pred z_values g).map (fun p => if threshold < p then 1 else 0))
  else
    listMean (groupVals y_pred z_values g)

/-- `p_rule(y_pred, z_values, threshold)` from the notebook:
`odds = y_z_1.mean() / y_z_0.mean(); return np.min([odds, 1/odds]) * 100`. -/
def p_rule (y_pred z_values : List ℚ) (threshold : ℚ) : ℚ :=
  let odds := groupMean y_pred z_values 1 threshold / groupMean y_pred z_values 0 threshold
  min odds (1 / odds) * 100

/-- The cell selection of `fp_rate`/`fn_rate`:
`y_pred[(y_test == b) & (z_values == g)]`. -/
def cell (y_test : List Bool) (y_pred z_values : List ℚ) (b : Bool) (g : ℚ) : List ℚ :=
  ((y_pred.zip (y_test.zip z_values)).filter (fun p => p.2.1 = b ∧ p.2.2 = g)).map Prod.fst

/-- `fp_rate(y_test, y_pred, z_values, threshold)`: the pair
`{0: (z_0 > threshold).sum() / len(z_0), 1: (z_1 > threshold).sum() / len(z_1)}`
over the two `y_test == False` cells. -/
def fp_rate (y_test : List Bool) (y_pred z_values : List ℚ) (threshold : ℚ) : ℚ × ℚ :=
  let z_0 := cell y_test y_pred z_values false 0
  let z_1 := cell y_test y_pred z_values false 1
  ((z_0.countP (fun p => threshold < p) : ℚ) / z_0.length,
   (z_1.countP (fun p => threshold < p) : ℚ) / z_1.length)

/-- `fn_rate(y_test, y_pred, z_values, threshold)`: the pair
`{0: (z_0 <= threshold).sum() / len(z_0), 1: (z_1 <= threshold).sum() / len(z_1)}`
over the two `y_test == True` cells. -/
def fn_rate (y_test : List Bool) (y_pred z_values : List ℚ) (threshold : ℚ) : ℚ × ℚ :=
  let z_0 := cell y_test y_pred z_values true 0
  let z_1 := cell y_test y_pred z_values true 1
  ((z_0.countP (fun p => p ≤ threshold) : ℚ) / z_0.length,
   (z_1.countP (fun p => p ≤ threshold) : ℚ) / z_1.length)

/-- Spec-side reading for claim C3: the fraction of samples in group `g`
whose prediction exceeds `t`. -/
def posRate (y_pred z_values : List ℚ) (g t : ℚ) : ℚ :=
  ((groupVals y_pred z_values g).countP (fun p => t < p) : ℚ) /
    (groupVals y_pred z_values g).length

/-- Swapping the two group labels `0` and `1` in a group vector. -/
def swap01 (v : ℚ) : ℚ := if v = 1 then 0 else if v = 0 then 1 else v

theorem sum_map_indicator (t : ℚ) (l : List ℚ) :
    (l.map (fun p => if t < p then (1 : ℚ) else 0)).sum
      = l.countP (fun p => t < p) := by
  induction l with
  | nil => simp
  | cons a l ih =>
      by_cases h : t < a <;>
        simp [List.countP_cons, h, ih, add_comm]

theorem groupMean_of_ne_zero (y_pred z_values : List ℚ) (g t : ℚ) (ht : t ≠ 0) :
    groupMean y_pred z_values g t = posRate y_pred z_values g t := by
  simp only [groupMean, if_pos ht, posRate, listMean, sum_map_indicator,
    List.length_map]

theorem groupVals_map_swap01 (y_pred z_values : List ℚ) :
    groupVals y_pred (z_values.map swap01) 1 = groupVals y_pred z_values 0 ∧
    groupVals y_pred (z_values.map swap01) 0 = groupVals y_pred z_values 1 := by
  have h1 : ∀ v : ℚ, (swap01 v = 1) = (v = 0) := by
    intro v
    simp only [swap01]
    by_cases hv1 : v = 1 <;> by_cases hv0 : v = 0 <;> simp [hv1, hv0]
  have h0 : ∀ v : ℚ, (swap01 v = 0) = (v = 1) := by
    intro v
    simp only [swap01]
    by_cases hv1 : v = 1 <;> by_cases hv0 : v = 0 <;> simp [hv1, hv0]
  constructor <;>
  · simp only [groupVals, List.zip_map_right, List.filter_map, List.map_map]
    congr 1
    apply List.filter_congr
    intro pz _
    simp [h1, h0]

theorem min_odds_le_one (a : ℚ) : min a (1 / a) ≤ 1 := by
  rcases le_or_lt a 1 with h | h
  · exact le_trans (min_le_left _ _) h
  · have ha : (0 : ℚ) < a := lt_trans one_pos h
    have : 1 / a ≤ 1 := by
      rw [div_le_one ha]
      exact le_of_lt h
    exact le_trans (min_le_right _ _) this

/-- Claim C3: for every prediction vector, group vector and non-zero threshold
`t`, `p_rule` equals `min (r1 / r0) (r0 / r1) * 100` where `r g` is the
fraction of samples in group `g` whose prediction exceeds `t`; consequently
the result is at most `100`, and it is unchanged when the two group labels
are swapped. -/
theorem C3_p_rule_spec (y_pred z_values : List ℚ) (t : ℚ) (ht : t ≠ 0) :
    p_rule y_pred z_values t
      = min (posRate y_pred z_values 1 t / posRate y_pred z_values 0 t)
          (posRate y_pred z_values 0 t / posRate y_pred z_values 1 t) * 100 ∧
    p_rule y_pred z_values t ≤ 100 ∧
    p_rule y_pred (z_values.map swap01) t = p_rule y_pred z_values t := by
  have hmain : ∀ yp zv : List ℚ, p_rule yp zv t
      = min (posRate yp zv 1 t / posRate yp zv 0 t)
          (posRate yp zv 0 t / posRate yp zv 1 t) * 100 := by
    intro yp zv
    simp only [p_rule, groupMean_of_ne_zero _ _ _ _ ht, one_div_div]
  refine ⟨hmain y_pred z_values, ?_, ?_⟩
  · calc p_rule y_pred z_values t
        = min (groupMean y_pred z_values 1 t / groupMean y_pred z_values 0 t)
            (1 / (groupMean y_pred z_values 1 t / groupMean y_pred z_values 0 t)) * 100 :=
          rfl
      _ ≤ 1 * 100 := by
          have := min_odds_le_one
            (groupMean y_pred z_values 1 t / groupMean y_pred z_values 0 t)
          nlinarith
      _ = 100 := one_mul 100
  · rw [hmain y_pred (z_values.map swap01), hmain y_pred z_values]
    have hs := groupVals_map_swap01 y_pred z_values
    have e1 : posRate y_pred (z_values.map swap01) 1 t = posRate y_pred z_values 0 t := by
      simp only [posRate, hs.1]
    have e0 : posRate y_pred (z_values.map swap01) 0 t = posRate y_pred z_values 1 t := by
      simp only [posRate, hs.2]
    rw [e1, e0, min_comm]

theorem C3_p_rule_spec_witness :
    ((1 : ℚ) / 2 ≠ 0) ∧
    (p_rule [3/4, 1/4, 3/4, 3/4] [1, 1, 0, 0] (1/2)
      = min (posRate [3/4, 1/4, 3/4, 3/4] [1, 1, 0, 0] 1 (1/2) /
              posRate [3/4, 1/4, 3/4, 3/4] [1, 1, 0, 0] 0 (1/2))
          (posRate [3/4, 1/4, 3/4, 3/4] [1, 1, 0, 0] 0 (1/2) /
              posRate [3/4, 1/4, 3/4, 3/4] [1, 1, 0, 0] 1 (1/2)) * 100 ∧
     p_rule [3/4, 1/4, 3/4, 3/4] [1, 1, 0, 0] (1/2) ≤ 100 ∧
     p_rule [3/4, 1/4, 3/4, 3/4] (List.map swap01 [1, 1, 0, 0]) (1/2)
      = p_rule [3/4, 1/4, 3/4, 3/4] [1, 1, 0, 0] (1/2)) :=
  ⟨by norm_num,
   C3_p_rule_spec [3/4, 1/4, 3/4, 3/4] [1, 1, 0, 0] (1/2) (by norm_num)⟩

/-- A CSV cell value as pandas reads it: a string, or a parsed integer. -/
inductive Val where
  | str : String → Val
  | int : ℤ → Val
deriving DecidableEq

/-- String form of a value, used by `get_dummies` for dummy-column naming. -/
def Val.key : Val → String
  | .str s => s
  | .int n => toString n

/-- Whether a value is a string (drives pandas object-dtype detection). -/
def Val.isStr : Val → Bool
  | .str _ => true
  | .int _ => false

/-- The cast `.astype(int)`: integers pass through, numeric strings parse,
anything else raises in pandas (here: `none`). -/
def Val.astypeInt : Val → Option ℤ
  | .int n => some n
  | .str s => s.toInt?

/-- The cast `.astype(int)` over a whole column: fails if any entry fails. -/
def astypeIntList : List Val → Option (List ℤ)
  | [] => some []
  | v :: vs => do
      let n ← v.astypeInt
      let ns ← astypeIntList vs
      return n :: ns

/-- A pandas DataFrame modelled as a list of named columns. -/
structure DataFrame where
  cols : List (String × List Val)
deriving DecidableEq

/-- Column lookup `df[name]` / `df.loc[:, [name]]`; pandas raises `KeyError`
on a missing column (here: `none`). -/
def DataFrame.getCol (df : DataFrame) (name : String) : Option (List Val) :=
  (df.cols.find? (fun c => c.1 = name)).map Prod.snd

/-- The list of column names of a DataFrame. -/
def DataFrame.colNames (df : DataFrame) : List String := df.cols.map Prod.fst

/-- `df.drop(columns=names)`: the columns whose name is not in `names`. -/
def DataFrame.drop (df : DataFrame) (names : List String) : DataFrame :=
  ⟨df.cols.filter (fun c => ¬ names.contains c.1)⟩

/-- Whether pandas stores the column with object dtype (some value is a
string), which is what `get_dummies` encodes. -/
def isObjectCol (vals : List Val) : Bool := vals.any Val.isStr

/-- The sorted distinct levels of a column, as `get_dummies` categorises. -/
def levels (vals : List Val) : List Val :=
  List.insertionSort (fun a b : Val => a.key ≤ b.key) vals.dedup

/-- `pd.get_dummies` on one object column with `drop_first=True`: one
indicator column named `col_level` for every level except the first. -/
def dummyCols (name : String) (vals : List Val) : List (String × List Val) :=
  ((levels vals).drop 1).map
    (fun lv => (name ++ "_" ++ lv.key,
      vals.map (fun v => if v = lv then Val.int 1 else Val.int 0)))

/-- `pd.get_dummies(df, drop_first=True)`: object columns are dummy-encoded,
numeric columns pass through unchanged. -/
def get_dummies_drop_first (df : DataFrame) : DataFrame :=
  ⟨df.cols.flatMap (fun c => if isObjectCol c.2 then dummyCols c.1 c.2 else [c])⟩

/-- `load_GEN_data` from the notebook:
`Z = input_data.loc[:, ['protected']].assign(protected = (protected == 'B').astype(int))`,
`y = input_data['target'].astype(int)`,
`X = input_data.drop(columns=['target', 'protected']).pipe(pd.get_dummies, drop_first=True)`.
Missing columns or a failing cast make pandas raise; the embedding returns
`none` there. -/
def load_GEN_data (input_data : DataFrame) :
    Option (DataFrame × List ℤ × DataFrame) := do
  let prot ← input_data.getCol "protected"
  let Z : DataFrame :=
    ⟨[("protected", prot.map (fun v => Val.int (if v = Val.str "B" then 1 else 0)))]⟩
  let targ ← input_data.getCol "target"
  let y ← astypeIntList targ
  let X := get_dummies_drop_first (input_data.drop ["target", "protected"])
  return (X, y, Z)

theorem load_GEN_data_eq_some (df X : DataFrame) (y : List ℤ) (Z : DataFrame)
    (h : load_GEN_data df = some (X, y, Z)) :
    ∃ prot targ, df.getCol "protected" = some prot ∧
      df.getCol "target" = some targ ∧
      astypeIntList targ = some y ∧
      X = get_dummies_drop_first (df.drop ["target", "protected"]) ∧
      Z = ⟨[("protected", prot.map (fun v => Val.int (if v = Val.str "B" then 1 else 0)))]⟩ := by
  cases hp : df.getCol "protected" with
  | none => simp [load_GEN_data, hp] at h
  | some prot =>
    cases htg : df.getCol "target" with
    | none => simp [load_GEN_data, hp, htg] at h
    | some targ =>
      cases hy : astypeIntList targ with
      | none => simp [load_GEN_data, hp, htg, hy] at h
      | some y0 =>
        simp only [load_GEN_data, hp, htg, hy, Option.pure_def, Option.bind_eq_bind,
          Option.some_bind, Option.some.injEq, Prod.mk.injEq] at h
        obtain ⟨h1, h2, h3⟩ := h
        exact ⟨prot, targ, rfl, rfl, by rw [← h2]; exact hy, h1.symm, h3.symm⟩

theorem underscore_mem_append (a b : String) : '_' ∈ (a ++ "_" ++ b).data := by
  rw [String.data_append, String.data_append]
  exact List.mem_append.mpr (Or.inl (List.mem_append.mpr (Or.inr (by decide))))

theorem mem_colNames_get_dummies (df : DataFrame) (n : String)
    (h : n ∈ (get_dummies_drop_first df).colNames) :
    n ∈ df.colNames ∨ '_' ∈ n.data := by
  simp only [get_dummies_drop_first, DataFrame.colNames, List.mem_map,
    List.mem_flatMap] at h
  obtain ⟨c', ⟨c, hc, hmem⟩, hn⟩ := h
  by_cases hobj : isObjectCol c.2
  · rw [if_pos hobj] at hmem
    simp only [dummyCols, List.mem_map] at hmem
    obtain ⟨lv, _, hEq⟩ := hmem
    right
    rw [← hn, ← hEq]
    exact underscore_mem_append c.1 lv.key
  · rw [if_neg hobj] at hmem
    rw [List.mem_singleton] at hmem
    left
    rw [← hn, hmem]
    exact List.mem_map.mpr ⟨c, hc, rfl⟩

theorem mem_colNames_drop (df : DataFrame) (names : List String) (n : String)
    (h : n ∈ (df.drop names).colNames) : n ∈ df.colNames ∧ ¬ names.contains n := by
  simp only [DataFrame.drop, DataFrame.colNames, List.mem_map] at h
  obtain ⟨c, hc, rfl⟩ := h
  have hf := List.mem_filter.mp hc
  refine ⟨List.mem_map.mpr ⟨c, hf.1, rfl⟩, ?_⟩
  have := hf.2
  simpa using this

/-- Claim C4: on every CSV the load accepts, the returned `Z` has a single
column `protected` that is `1` exactly on the rows whose CSV `protected`
value equals `"B"` and `0` on every other row. -/
theorem C4_load_Z_protected (df X : DataFrame) (y : List ℤ) (Z : DataFrame)
    (h : load_GEN_data df = some (X, y, Z)) :
    ∃ prot, df.getCol "protected" = some prot ∧
      Z.colNames = ["protected"] ∧
      ∃ zvals, Z.cols = [("protected", zvals)] ∧ zvals.length = prot.length ∧
        ∀ i (hi : i < prot.length) (hz : i < zvals.length),
          zvals.get ⟨i, hz⟩
            = if prot.get ⟨i, hi⟩ = Val.str "B" then Val.int 1 else Val.int 0 := by
  obtain ⟨prot, targ, hp, ht, hy, hX, hZ⟩ := load_GEN_data_eq_some df X y Z h
  subst hZ
  refine ⟨prot, hp, rfl, prot.map (fun v => Val.int (if v = Val.str "B" then 1 else 0)),
    rfl, List.length_map _ _, ?_⟩
  intro i hi hz
  simp only [List.get_eq_getElem, List.getElem_map]
  by_cases hB : prot[i] = Val.str "B" <;> simp [hB]

/-- Claim C5: on every CSV the load accepts, the feature matrix `X` has no
`target` and no `protected` column and is exactly the remaining columns
dummy-encoded with the first level dropped, and `y` is the CSV `target`
column cast to integers. -/
theorem C5_load_X_y (df X : DataFrame) (y : List ℤ) (Z : DataFrame)
    (h : load_GEN_data df = some (X, y, Z)) :
    "target" ∉ X.colNames ∧ "protected" ∉ X.colNames ∧
    X = get_dummies_drop_first (df.drop ["target", "protected"]) ∧
    ∃ targ, df.getCol "target" = some targ ∧ astypeIntList targ = some y := by
  obtain ⟨prot, targ, hp, ht, hy, hX, hZ⟩ := load_GEN_data_eq_some df X y Z h
  subst hX
  refine ⟨?_, ?_, rfl, targ, ht, hy⟩ <;>
  · intro hmem
    rcases mem_colNames_get_dummies _ _ hmem with hin | hus
    · have := (mem_colNames_drop _ _ _ hin).2
      simp at this
    · exact absurd hus (by decide)

/-- Claim C7: the load has no error handling: a CSV missing the `protected`
or the `target` column produces no result at all (pandas raises `KeyError`;
the embedding returns `none`). -/
theorem C7_load_fails_on_missing_columns (df : DataFrame)
    (h : df.getCol "protected" = none ∨ df.getCol "target" = none) :
    load_GEN_data df = none := by
  rcases h with h | h
  · simp [load_GEN_data, h]
  · cases hp : df.getCol "protected" with
    | none => simp [load_GEN_data, hp]
    | some prot => simp [load_GEN_data, hp, h]

/-- A concrete three-column CSV used by the load witnesses. -/
def dfW : DataFrame :=
  ⟨[("protected", [Val.str "A", Val.str "B"]),
    ("target", [Val.int 0, Val.int 1]),
    ("f", [Val.int 5, Val.int 7])]⟩

/-- The feature matrix the load returns on `dfW`. -/
def XW : DataFrame := ⟨[("f", [Val.int 5, Val.int 7])]⟩

/-- The protected-attribute frame the load returns on `dfW`. -/
def ZW : DataFrame := ⟨[("protected", [Val.int 0, Val.int 1])]⟩

theorem C4_load_Z_protected_witness :
    load_GEN_data dfW = some (XW, [0, 1], ZW) ∧
    (∃ prot, dfW.getCol "protected" = some prot ∧
      ZW.colNames = ["protected"] ∧
      ∃ zvals, ZW.cols = [("protected", zvals)] ∧ zvals.length = prot.length ∧
        ∀ i (hi : i < prot.length) (hz : i < zvals.length),
          zvals.get ⟨i, hz⟩
            = if prot.get ⟨i, hi⟩ = Val.str "B" then Val.int 1 else Val.int 0) :=
  ⟨rfl, C4_load_Z_protected dfW XW [0, 1] ZW rfl⟩

theorem C5_load_X_y_witness :
    load_GEN_data dfW = some (XW, [0, 1], ZW) ∧
    ("target" ∉ XW.colNames ∧ "protected" ∉ XW.colNames ∧
     XW = get_dummies_drop_first (dfW.drop ["target", "protected"]) ∧
     ∃ targ, dfW.getCol "target" = some targ ∧ astypeIntList targ = some [0, 1]) :=
  ⟨rfl, C5_load_X_y dfW XW [0, 1] ZW rfl⟩

theorem C7_load_fails_witness :
    DataFrame.getCol ⟨[("target", [Val.int 1])]⟩ "protected" = none ∧
    load_GEN_data ⟨[("target", [Val.int 1])]⟩ = none :=
  ⟨rfl, C7_load_fails_on_missing_columns ⟨[("target", [Val.int 1])]⟩ (Or.inl rfl)⟩

/-- Claim C10: with threshold `0` `p_rule` does not threshold at all but
compares the group means of the raw prediction scores, while for every
non-zero threshold (including negative ones) it compares the group means of
the indicator `prediction > t`; on the concrete input
`y_pred = [1/2, 1/4]`, `z_values = [1, 0]` the raw-score comparison gives
`50` while every positive threshold below `1/4` gives `100`. -/
theorem C10_p_rule_zero_threshold :
    (∀ y_pred z_values : List ℚ,
      p_rule y_pred z_values 0
        = min (listMean (groupVals y_pred z_values 1) / listMean (groupVals y_pred z_values 0))
            (listMean (groupVals y_pred z_values 0) / listMean (groupVals y_pred z_values 1))
          * 100) ∧
    (∀ (y_pred z_values : List ℚ) (t : ℚ), t ≠ 0 →
      p_rule y_pred z_values t
        = min (posRate y_pred z_values 1 t / posRate y_pred z_values 0 t)
            (posRate y_pred z_values 0 t / posRate y_pred z_values 1 t) * 100) ∧
    p_rule [1/2, 1/4] [1, 0] 0 = 50 ∧
    (∀ t : ℚ, 0 < t → t < 1/4 → p_rule [1/2, 1/4] [1, 0] t = 100) := by
  refine ⟨?_, ?_, ?_, ?_⟩
  · intro y_pred z_values
    simp only [p_rule, groupMean, ne_eq, not_true_eq_false, if_false, one_div_div]
  · intro y_pred z_values t ht
    simp only [p_rule, groupMean_of_ne_zero _ _ _ _ ht, one_div_div]
  · norm_num [p_rule, groupMean, groupVals, listMean, min_def]
  · intro t ht1 ht2
    have hne : t ≠ 0 := ne_of_gt ht1
    have h2 : t < 1/2 := by linarith
    norm_num [p_rule, groupMean, groupVals, listMean, hne, h2, ht2, min_def]

theorem C10_p_rule_zero_threshold_witness :
    p_rule [1/2, 1/4] [1, 0] 0 = 50 ∧ p_rule [1/2, 1/4] [1, 0] (1/8) = 100 :=
  ⟨C10_p_rule_zero_threshold.2.2.1,
   C10_p_rule_zero_threshold.2.2.2 (1/8) (by norm_num) (by norm_num)⟩

/-- Claim C8: the divisions of `fp_rate`/`fn_rate` and `p_rule` have no
guard, and their denominators vanish on concrete inputs. With
`y_test = [true]`, `z_values = [0]`, the `(y_test == False) & (z_values == 0)`
cell of `fp_rate` is empty, so `len(z_0) = 0`; dually the
`(y_test == True) & (z_values == 0)` cell of `fn_rate` is empty for
`y_test = [false]`. With `y_pred = [3/4, 1/4]`, `z_values = [1, 0]` and
threshold `1/2`, every group-`0` prediction is at most the threshold, so the
group-`0` mean `y_z_0.mean()` dividing `p_rule`'s odds is `0`; numpy
produces `nan`/`inf` at these inputs (in the `ℚ` embedding total division
returns `0` there). -/
theorem C8_zero_denominators :
    cell [true] [1/2] [0] false 0 = [] ∧
    ((cell [true] [1/2] [0] false 0).length : ℚ) = 0 ∧
    cell [false] [1/2] [0] true 0 = [] ∧
    ((cell [false] [1/2] [0] true 0).length : ℚ) = 0 ∧
    groupMean [3/4, 1/4] [1, 0] 0 (1/2) = 0 ∧
    groupVals [3/4, 1/4] [1, 0] 0 ≠ [] := by
  refine ⟨?_, ?_, ?_, ?_, ?_, ?_⟩ <;>
    norm_num [cell, groupMean, groupVals, listMean]

/-- Binary cross-entropy of one prediction against one target:
`-(t * log p + (1 - t) * log (1 - p))`, what `nn.BCELoss` computes per
element (`Real.log` stands for the float `log`). -/
noncomputable def bce (p t : ℝ) : ℝ :=
  -(t * Real.log p + (1 - t) * Real.log (1 - p))

/-- `nn.BCELoss()` with the default mean reduction over a batch of
one-dimensional outputs. -/
noncomputable def BCELoss_mean (ps ts : List ℝ) : ℝ :=
  (List.zipWith bce ps ts).sum / ps.length

/-- `nn.BCELoss(reduce=False)`: the vector of per-sample losses. -/
noncomputable def BCELoss_none (ps ts : List ℝ) : List ℝ :=
  List.zipWith bce ps ts

/-- `lambdas = torch.Tensor([20])`: the adversarial weight of the combined
training step (a one-element tensor, broadcast in the product). -/
def lambdas : ℝ := 20

/-- The classifier loss computed in `train`:
`clf_loss = clf_criterion(p_y, y) - (clf_adv_criterion(adv(p_y), z) * lambdas).sum()`,
with `p_adv` standing for `adv(p_y)`. -/
noncomputable def train_clf_loss (p_y y p_adv z : List ℝ) : ℝ :=
  BCELoss_mean p_y y - ((BCELoss_none p_adv z).map (fun l => l * lambdas)).sum

/-- The adversary loss `loss_adv = adv_criterion(p_adv, z)` computed per
batch in `train` (and in `pretrain_adverserial`). -/
noncomputable def train_adv_loss (p_adv z : List ℝ) : ℝ := BCELoss_mean p_adv z

theorem sum_map_mul_lambdas (l : List ℝ) :
    (l.map (fun x => x * lambdas)).sum = 20 * l.sum := by
  induction l with
  | nil => simp
  | cons a l ih =>
      simp only [List.map_cons, List.sum_cons, lambdas] at ih ⊢
      rw [ih]
      ring

/-- Claim C1: the classifier loss of the combined train step is the binary
cross-entropy of the classifier predictions against the labels minus the sum
of the per-sample binary cross-entropies of the adversary outputs against
the protected labels, each weighted by `lambda = 20`; hence on any fixed
batch, a strictly larger adversary loss gives a strictly smaller classifier
loss. -/
theorem C1_train_clf_loss_penalty (p_y y p_adv p_adv' z : List ℝ) (n : ℕ)
    (hlen : p_adv.length = n) (hlen' : p_adv'.length = n) (hn : 0 < n)
    (hadv : train_adv_loss p_adv z < train_adv_loss p_adv' z) :
    train_clf_loss p_y y p_adv z
      = BCELoss_mean p_y y - 20 * (BCELoss_none p_adv z).sum ∧
    train_clf_loss p_y y p_adv' z < train_clf_loss p_y y p_adv z := by
  have heq : ∀ pa : List ℝ, train_clf_loss p_y y pa z
      = BCELoss_mean p_y y - 20 * (BCELoss_none pa z).sum := by
    intro pa
    rw [train_clf_loss, sum_map_mul_lambdas]
  have hn' : (0 : ℝ) < n := by exact_mod_cast hn
  have hsum : (BCELoss_none p_adv z).sum < (BCELoss_none p_adv' z).sum := by
    rw [train_adv_loss, train_adv_loss, BCELoss_mean, BCELoss_mean, hlen, hlen'] at hadv
    exact (div_lt_div_iff_of_pos_right hn').mp hadv
  refine ⟨heq p_adv, ?_⟩
  rw [heq p_adv, heq p_adv']
  linarith

theorem C1_train_clf_loss_penalty_witness :
    train_adv_loss [1] [1] < train_adv_loss [1/2] [1] ∧
    (train_clf_loss [1] [1] [1] [1]
        = BCELoss_mean [1] [1] - 20 * (BCELoss_none [1] [1]).sum ∧
      train_clf_loss [1] [1] [1/2] [1] < train_clf_loss [1] [1] [1] [1]) := by
  have hadv : train_adv_loss [1] [1] < train_adv_loss [1/2] [1] := by
    have h1 : train_adv_loss [1] [1] = 0 := by
      simp [train_adv_loss, BCELoss_mean, bce]
    have h2 : train_adv_loss [1/2] [1] = Real.log 2 := by
      simp [train_adv_loss, BCELoss_mean, bce]
    rw [h1, h2]
    exact Real.log_pos one_lt_two
  exact ⟨hadv,
    C1_train_clf_loss_penalty [1] [1] [1] [1/2] [1] 1 (by simp) (by simp)
      one_pos hadv⟩

/-- One `nn.Linear` layer: a weight matrix (one row per output) and a bias
vector; applying it takes each row's dot product with the input plus the
bias. -/
structure LinearLayer where
  weight : List (List ℝ)
  bias : List ℝ

/-- Application of a linear layer to an input vector. -/
def LinearLayer.apply (l : LinearLayer) (v : List ℝ) : List ℝ :=
  List.zipWith (fun row b => (List.zipWith (fun w x => w * x) row v).sum + b)
    l.weight l.bias

/-- `F.relu`. -/
def relu (x : ℝ) : ℝ := max x 0

/-- `F.sigmoid` (`Real.exp` stands for the float `exp`). -/
noncomputable def sigmoid (x : ℝ) : ℝ := 1 / (1 + Real.exp (-x))

/-- The `Adverserial` module:
`Linear(1, n_hidden) → ReLU → Linear(n_hidden, n_hidden) → ReLU →
Linear(n_hidden, n_hidden) → ReLU → Linear(n_hidden, n_sensitive)` with
`F.sigmoid` applied in `forward`. Its first layer is `Linear(1, n_hidden)`,
so `forward` takes a single real number: the classifier's output
probability, fed to the first layer as the singleton vector `[p]`. -/
structure Adverserial where
  l1 : LinearLayer
  l2 : LinearLayer
  l3 : LinearLayer
  l4 : LinearLayer

/-- `Adverserial.forward` on the one-dimensional input `p`. -/
noncomputable def Adverserial.forward (A : Adverserial) (p : ℝ) : List ℝ :=
  (A.l4.apply
    ((A.l3.apply
      ((A.l2.apply
        ((A.l1.apply [p]).map relu)).map relu)).map relu)).map sigmoid

/-- `nn.BCELoss()` over a batch of multi-dimensional outputs (a row per
sample): the mean of all elementwise binary cross-entropies. -/
noncomputable def BCELoss_mean2 (ps ts : List (List ℝ)) : ℝ :=
  ((List.zipWith (fun pr tr => List.zipWith bce pr tr) ps ts).flatten).sum /
    ((List.zipWith (fun pr tr => List.zipWith bce pr tr) ps ts).flatten).length

/-- The loss one batch contributes in `pretrain_adverserial`:
`p_y = clf(x).detach(); p_z = adv(p_y); loss = criterion(p_z, z)`.
Each sample's adversary input is exactly the classifier output `clf x`. -/
noncomputable def pretrain_adv_loss (A : Adverserial) (clf : List ℝ → ℝ)
    (xs zs : List (List ℝ)) : ℝ :=
  BCELoss_mean2 (xs.map (fun x => A.forward (clf x))) zs

/-- Claim C2: the adversary predicts the protected attribute from the
classifier's output alone: the pretraining loss is the binary cross-entropy
of the adversary outputs against `z`, where the adversary input is the
one-dimensional classifier output (its first layer is `Linear(1, n_hidden)`,
so `Adverserial.forward` consumes one real number); in particular two
feature batches on which the classifier outputs agree give the adversary the
same loss, so no feature of `x` reaches the adversary directly. -/
theorem C2_adversary_input_is_clf_output :
    (∀ (A : Adverserial) (clf : List ℝ → ℝ) (xs zs : List (List ℝ)),
      pretrain_adv_loss A clf xs zs
        = BCELoss_mean2 ((xs.map clf).map A.forward) zs) ∧
    (∀ (A : Adverserial) (clf clf2 : List ℝ → ℝ) (xs xs' zs : List (List ℝ)),
      xs.map clf = xs'.map clf2 →
      pretrain_adv_loss A clf xs zs = pretrain_adv_loss A clf2 xs' zs) := by
  have key : ∀ (A : Adverserial) (clf : List ℝ → ℝ) (xs zs : List (List ℝ)),
      pretrain_adv_loss A clf xs zs
        = BCELoss_mean2 ((xs.map clf).map A.forward) zs := by
    intro A clf xs zs
    rw [pretrain_adv_loss, List.map_map]
    rfl
  refine ⟨key, ?_⟩
  intro A clf clf2 xs xs' zs h
  rw [key, key, h]

/-- A concrete adversary instance used by the C2 witness. -/
def advW : Adverserial :=
  ⟨⟨[[1]], [0]⟩, ⟨[[1]], [0]⟩, ⟨[[1]], [0]⟩, ⟨[[1]], [0]⟩⟩

theorem C2_adversary_input_is_clf_output_witness :
    ([[(1 : ℝ)/2, 5]].map (fun v => v.headD 0)
        = [[(1 : ℝ)/2, 7]].map (fun v => v.headD 0)) ∧
    pretrain_adv_loss advW (fun v => v.headD 0) [[1/2, 5]] [[1]]
      = pretrain_adv_loss advW (fun v => v.headD 0) [[1/2, 7]] [[1]] :=
  ⟨rfl, C2_adversary_input_is_clf_output.2 advW (fun v => v.headD 0)
    (fun v => v.headD 0) [[1/2, 5]] [[1/2, 7]] [[1]] rfl⟩

/-- The control flow of `train` over one epoch, with the two optimizer steps
abstracted: `stepAdv a c batch` is the adversary update done inside the
batch loop (`adv.zero_grad(); loss_adv.backward(retain_graph=True);
adv_optimizer.step()`, whose loss reads the current classifier through
`p_y = clf(x)`), and `stepClf c a batch` is the classifier update done once
after the loop (`clf.zero_grad(); clf_loss.backward(); clf_optimizer.step()`,
whose loss uses the last batch's `p_y`, `y`, `z` and the current adversary).
On an empty loader the Python body would raise `NameError` (`p_y`, `y`, `z`
are unbound after the loop), so the embedding returns `none` there. -/
def train {α β B : Type} (stepAdv : α → β → B → α) (stepClf : β → α → B → β)
    (clf : β) (adv : α) (batches : List B) : Option (β × α) :=
  match batches with
  | [] => none
  | b :: bs =>
      let advF := (b :: bs).foldl (fun a batch => stepAdv a clf batch) adv
      some (stepClf clf advF ((b :: bs).getLast (List.cons_ne_nil b bs)), advF)

/-- Claim C9: in every call to `train` on a non-empty loader, the adversary
is updated once per batch (a fold of `stepAdv` over the batch list, always
reading the same unchanged classifier), while the classifier is updated
exactly once, by a single `stepClf` applied to the last batch only. -/
theorem C9_train_update_discipline {α β B : Type} (stepAdv : α → β → B → α)
    (stepClf : β → α → B → β) (clf : β) (adv : α) (batches : List B)
    (h : batches ≠ []) :
    train stepAdv stepClf clf adv batches
      = some (stepClf clf (batches.foldl (fun a batch => stepAdv a clf batch) adv)
            (batches.getLast h),
          batches.foldl (fun a batch => stepAdv a clf batch) adv) := by
  cases batches with
  | nil => exact absurd rfl h
  | cons b bs => rfl

theorem C9_train_update_discipline_witness :
    (([2, 3] : List ℕ) ≠ []) ∧
    train (fun a c x => a + c + x) (fun c a x => c * 100 + a + x) 1 0 [2, 3]
      = some (110, 7) := by
  have h : ([2, 3] : List ℕ) ≠ [] := by simp
  refine ⟨h, ?_⟩
  rw [C9_train_update_discipline (fun a c x => a + c + x)
    (fun c a x => c * 100 + a + x) 1 0 [2, 3] h]
  rfl

end NeverFair
